import Mathlib

/-!
Verification of the lead-finder search pipeline (`/api/search.js`).

The JavaScript source is shallowly embedded below.  JS strings are modeled
as Lean `String`s; the handful of JS string primitives the code uses
(`toLowerCase`, `trim`, `split(/\s+/)`, `includes`, `endsWith`, `join`)
are implemented over `String.data` so that every definition is executable
and kernel-reducible.  Network effects (the three provider calls and the
contact-page fetches) are modeled as oracle functions passed to the
handler; a provider call either returns the adapter's translated candidate
list (`Except.ok`) or throws (`Except.error`).
-/

namespace LeadFinder

/-- Whitespace for JS `trim` / `\s`: ASCII whitespace plus NBSP, BOM and
the Unicode line/paragraph separators (the code points relevant here). -/
def isWs (c : Char) : Bool :=
  c.toNat = 9 || c.toNat = 10 || c.toNat = 11 || c.toNat = 12 || c.toNat = 13 ||
  c.toNat = 32 || c.toNat = 160 || c.toNat = 0x2028 || c.toNat = 0x2029 || c.toNat = 0xFEFF

/-- ASCII case lowering, as JS `toLowerCase` acts on ASCII code points
(all strings handled by this program's logic are compared via ASCII). -/
def charLower (c : Char) : Char :=
  if 65 ≤ c.toNat ∧ c.toNat ≤ 90 then Char.ofNat (c.toNat + 32) else c

/-- JS `String.prototype.toLowerCase`. -/
def lowerStr (s : String) : String := ⟨s.data.map charLower⟩

/-- JS `String.prototype.trim`: strip leading and trailing whitespace. -/
def trimStr (s : String) : String :=
  ⟨((s.data.dropWhile isWs).reverse.dropWhile isWs).reverse⟩

/-- Maximal non-whitespace runs of a character list: the effect of JS
`split(/\s+/)` followed by `.filter(Boolean)`.  `cur` accumulates the
current word in reverse. -/
def wordsAux : List Char → List Char → List (List Char)
  | [], cur => if cur = [] then [] else [cur.reverse]
  | c :: cs, cur =>
    if isWs c then
      (if cur = [] then wordsAux cs [] else cur.reverse :: wordsAux cs [])
    else wordsAux cs (c :: cur)

/-- Does `t` start with `pat`? (list version of JS prefix comparison). -/
def prefixOfL : List Char → List Char → Bool
  | [], _ => true
  | _ :: _, [] => false
  | a :: as, b :: bs => a == b && prefixOfL as bs

/-- Does `t` contain `pat` as a contiguous substring?  Models JS
`String.prototype.includes`. -/
def containsSubL : List Char → List Char → Bool
  | pat, [] => prefixOfL pat []
  | pat, c :: ts => prefixOfL pat (c :: ts) || containsSubL pat ts

/-- JS `String.prototype.endsWith`. -/
def strEndsWith (s suffix : String) : Bool :=
  prefixOfL suffix.data.reverse s.data.reverse

/-- `[..].join(' ')` on a list of strings. -/
def joinSp : List String → String
  | [] => ""
  | [x] => x
  | x :: y :: ys => x ++ " " ++ joinSp (y :: ys)

/-- Source `tokens` helper (src/unnamed/part_000:56):
`String(s || '').toLowerCase().trim().split(/\s+/).filter(Boolean)`. -/
def jsTokens (s : String) : List String :=
  (wordsAux (trimStr (lowerStr s)).data []).map (fun l => ⟨l⟩)

/-- Source `containsAll` helper (src/unnamed/part_000:57-61): true when `q`
is blank, otherwise every token of `q` occurs as a substring of the
lowered `text`. -/
def containsAll (text q : String) : Bool :=
  if (trimStr q).data = [] then true
  else (jsTokens q).all (fun tok => containsSubL tok.data (lowerStr text).data)

/-- Search criteria: the three trimmed request strings. -/
structure SearchCriteria where
  subject : String
  industry : String
  location : String
deriving DecidableEq

/-- A candidate record as consumed by `score`: the JS object fields read
by the scoring closure.  Provider adapters never set `description`
(it is attached to the enriched item only after scoring), so a missing
description is `none` and joins as the empty string, exactly as JS
`Array.prototype.join` renders `undefined`. -/
structure Candidate where
  name : String
  website : String
  address : String
  description : Option String := none
deriving DecidableEq

/-- Raw points for the three criterion matches (50 subject, 30 industry,
20 location), from src/unnamed/part_000:64-67. -/
def rawFromFlags (a b c : Bool) : Nat :=
  (if a then 50 else 0) + (if b then 30 else 0) + (if c then 20 else 0)

/-- `Math.max(10, Math.min(100, s || 10))` from src/unnamed/part_000:68. -/
def clampScore (s : Nat) : Nat :=
  max 10 (min 100 (if s = 0 then 10 else s))

/-- Source `score` (src/unnamed/part_000:62-69): join name, description,
address, website with spaces, award 50/30/20 for the subject, industry
and location criteria, then clamp. -/
def score (crit : SearchCriteria) (c : Candidate) : Nat :=
  let combined :=
    c.name ++ " " ++ (c.description.getD "") ++ " " ++ c.address ++ " " ++ c.website
  clampScore (rawFromFlags
    (containsAll combined crit.subject)
    (containsAll combined crit.industry)
    (containsAll c.address crit.location))

/-- Source `queryUsed` (src/unnamed/part_000:44-47):
`[subject, industry, location ? 'in ' + location : ''].filter(Boolean).join(' ').trim() || 'manufacturer'`. -/
def buildQuery (crit : SearchCriteria) : String :=
  let parts := [crit.subject, crit.industry,
                if crit.location = "" then "" else "in " ++ crit.location]
  let joined := trimStr (joinSp (parts.filter (fun s => ¬ (s = ""))))
  if joined = "" then "manufacturer" else joined

/-! ### URL normalization (`normalizeUrl`, src/unnamed/part_000:282-290)

`normalizeUrl` feeds its input (prefixed with `https://` unless it already
starts with `http`) to the WHATWG `URL` constructor and returns
`url.origin`, or `''` when the constructor throws.  The parser below
models the constructor for the inputs this program produces: scheme
validation, the `//` authority of the special http/https schemes,
userinfo stripping at the last `@`, a numeric port (default ports
omitted from the origin), host lowering and the WHATWG forbidden host
code points.  A syntactically valid URL with a non-special scheme has
origin `"null"`, as in JS. -/

/-- Split a character list at its first colon. -/
def splitAtColon : List Char → Option (List Char × List Char)
  | [] => none
  | c :: cs =>
    if c = ':' then some ([], cs)
    else match splitAtColon cs with
      | some (a, b) => some (c :: a, b)
      | none => none

/-- Characters allowed after the first one in a URL scheme. -/
def schemeChar (c : Char) : Bool := c.isAlphanum || c = '+' || c = '-' || c = '.'

/-- A scheme is a letter followed by letters, digits, `+`, `-`, `.`. -/
def validScheme : List Char → Bool
  | [] => false
  | c :: cs => c.isAlpha && cs.all schemeChar

/-- WHATWG forbidden host code points (plus controls); a host containing
one makes the URL constructor throw. -/
def forbiddenHostChar (c : Char) : Bool :=
  c.toNat ≤ 32 ||
  c = '#' || c = '/' || c = ':' || c = '<' || c = '>' || c = '?' ||
  c = '@' || c = '[' || c = '\\' || c = ']' || c = '^' || c = '|'

/-- The authority runs up to the first `/`, `?`, `#` or `\` (a backslash
ends the authority of a special scheme just like a slash). -/
def authorityEnd (c : Char) : Bool := c = '/' || c = '?' || c = '#' || c = '\\'

/-- Drop the userinfo: keep only what follows the last `@`. -/
def afterLastAt (l : List Char) : List Char :=
  (l.reverse.takeWhile (fun c => ¬ c = '@')).reverse

/-- Split a character list at its first occurrence of `sep`. -/
def splitAtChar (sep : Char) : List Char → Option (List Char × List Char)
  | [] => none
  | c :: cs =>
    if c = sep then some ([], cs)
    else match splitAtChar sep cs with
      | some (a, b) => some (c :: a, b)
      | none => none

/-- Split host and port at the last colon of the host-port segment. -/
def splitPort (l : List Char) : List Char × Option (List Char) :=
  match splitAtChar ':' l.reverse with
  | none => (l, none)
  | some (revPort, revHost) => (revHost.reverse, some revPort.reverse)

/-- Digits of a port rendered as a number (leading zeros dropped). -/
def portVal : List Char → Nat
  | l => l.foldl (fun n c => n * 10 + (c.toNat - 48)) 0

/-- Parse an absolute URL string and return its origin (`none` when the
WHATWG `URL` constructor would throw). -/
def parseOrigin (s : String) : Option String :=
  match splitAtColon s.data with
  | none => none
  | some (sch, rest) =>
    if validScheme sch then
      let schl := sch.map charLower
      if schl = "http".data ∨ schl = "https".data then
        match rest with
        | '/' :: '/' :: auth0 =>
          let auth := auth0.takeWhile (fun c => ¬ authorityEnd c)
          let hp := afterLastAt auth
          let host := (splitPort hp).1
          let port := (splitPort hp).2
          if (¬ host = []) && host.all (fun c => ¬ forbiddenHostChar c) &&
             (match port with
              | none => true
              | some p => p.all Char.isDigit) then
            let defaultPort : Nat := if schl = "http".data then 80 else 443
            let portPart : List Char :=
              match port with
              | none => []
              | some [] => []
              | some p => if portVal p = defaultPort then []
                          else ':' :: (toString (portVal p)).data
            some ⟨schl ++ (':' :: '/' :: '/' :: host.map charLower) ++ portPart⟩
          else none
        | _ => none
      else some "null"
    else none

/-- JS `String.prototype.startsWith`. -/
def jsStartsWith (s pre : String) : Bool := prefixOfL pre.data s.data

/-- Source `normalizeUrl` (src/unnamed/part_000:282-290): prefix
`https://` unless the string already starts with `http`, take the
origin, and return `''` when URL construction fails. -/
def normalizeUrl (u : String) : String :=
  let s := if jsStartsWith u "http" then u else "https://" ++ u
  match parseOrigin s with
  | some origin => origin
  | none => ""

/-- `fetch` parses its URL before any network activity and throws on an
unparseable one; only a parseable URL reaches the network oracle. -/
def urlIsParseable (u : String) : Bool := (parseOrigin u).isSome

/-- One page fetch (`getWithTimeout`, src/unnamed/part_000:292-301) run
against a network oracle `net`: `some html` is a response body (of any
HTTP status — the source never checks `r.ok` here), `none` is a thrown
error or timeout.  An unparseable URL always throws. -/
def jsFetch (net : String → Option String) (url : String) : Option String :=
  if urlIsParseable url then net url else none

/-! ### Email extraction (`extractEmails`, src/unnamed/part_000:274-280)

The regex `/[a-zA-Z0-9._%+-]+@[a-zA-Z0-9.-]+\.[A-Za-z]{2,}/g` is executed
with JS semantics: leftmost match, greedy quantifiers with backtracking,
resume at the end of each match.  Since the trailing `\.[A-Za-z]{2,}`
only consumes characters of the domain class, the domain part of a match
is a split of the maximal domain-class run: the longest prefix that
leaves a literal dot followed by at least two letters. -/

/-- Local-part characters: `[a-zA-Z0-9._%+-]`. -/
def localChar (c : Char) : Bool :=
  c.isAlphanum || c = '.' || c = '_' || c = '%' || c = '+' || c = '-'

/-- Domain characters: `[a-zA-Z0-9.-]`. -/
def domainChar (c : Char) : Bool := c.isAlphanum || c = '.' || c = '-'

/-- Try to end the domain at index `k` of the domain-class run: requires
a dot at `k` (with `k ≥ 1`) followed by at least two letters; the match
then extends over the following maximal letter run. -/
def tryDomAt (drun : List Char) (k : Nat) : Option (List Char × List Char) :=
  if k = 0 then none
  else match drun.drop k with
    | '.' :: rest =>
      let al := rest.span Char.isAlpha
      if 2 ≤ al.1.length then some (drun.take k ++ '.' :: al.1, al.2) else none
    | _ => none

/-- Scan split positions from the right (greedy `+` backtracks from the
longest prefix). -/
def domSplitAux (drun : List Char) : Nat → Option (List Char × List Char)
  | 0 => none
  | Nat.succ k =>
    match tryDomAt drun (Nat.succ k) with
    | some r => some r
    | none => domSplitAux drun k

/-- Split the maximal domain-class run into the matched domain and the
leftover characters, if the domain pattern can match. -/
def domSplit (drun : List Char) : Option (List Char × List Char) :=
  match drun.length with
  | 0 => none
  | Nat.succ n => domSplitAux drun n

/-- Try to match the email regex at the start of `l`; on success return
the match and the characters after it. -/
def matchEmailAt (l : List Char) : Option (List Char × List Char) :=
  let lc := l.span localChar
  if lc.1 = [] then none
  else match lc.2 with
    | '@' :: r2 =>
      let dr := r2.span domainChar
      match domSplit dr.1 with
      | some (dom, leftover) => some (lc.1 ++ '@' :: dom, leftover ++ dr.2)
      | none => none
    | _ => none

/-- `re.exec` loop: scan start positions left to right, resume after each
match.  Fueled by the input length (every step consumes at least one
character). -/
def scanEmailsF : Nat → List Char → List (List Char)
  | 0, _ => []
  | Nat.succ _, [] => []
  | Nat.succ f, c :: cs =>
    match matchEmailAt (c :: cs) with
    | some (m, rest) => m :: scanEmailsF f rest
    | none => scanEmailsF f cs

/-- Insertion-ordered set insert, as JS `Set.prototype.add`. -/
def setAdd (out : List String) (e : String) : List String :=
  if out.contains e then out else out ++ [e]

/-- Source `extractEmails` (src/unnamed/part_000:274-280): all regex
matches in order, deduplicated by a `Set`. -/
def extractEmails (html : String) : List String :=
  ((scanEmailsF html.data.length html.data).map (fun l => (⟨l⟩ : String))).foldl setAdd []

/-! ### Email discovery (`fetchPublicEmails`, src/unnamed/part_000:247-272) -/

/-- The five probed URLs, in source order. -/
def contactPaths (base : String) : List String :=
  [base, base ++ "/contact", base ++ "/contact-us", base ++ "/about", base ++ "/contacts"]

/-- Inner loop over one page's extracted emails: skip raw matches ending
in `.example`, insert the rest lowercased, break once the set has 3. -/
def addEmailsLoop : List String → List String → List String
  | out, [] => out
  | out, e :: rest =>
    let out2 := if strEndsWith e ".example" then out else setAdd out (lowerStr e)
    if 3 ≤ out2.length then out2 else addEmailsLoop out2 rest

/-- Outer loop over candidate pages: a failed fetch is skipped silently;
stop as soon as 3 addresses are collected. -/
def pagesLoop (net : String → Option String) : List String → List String → List String
  | out, [] => out
  | out, url :: rest =>
    match jsFetch net url with
    | none => pagesLoop net out rest
    | some html =>
      let out2 := addEmailsLoop out (extractEmails html)
      if 3 ≤ out2.length then out2 else pagesLoop net out2 rest

/-- Source `fetchPublicEmails` (src/unnamed/part_000:247-272). -/
def fetchPublicEmails (net : String → Option String) (website : String) : List String :=
  if website = "" then []
  else pagesLoop net [] (contactPaths (normalizeUrl website))

/-! ### LinkedIn link builder (`buildLinkedInSearch`, src/unnamed/part_000:303-310) -/

/-- `encodeURIComponent` unreserved set: alphanumerics and `-_.!~*'()`. -/
def unreservedUri (c : Char) : Bool :=
  c.isAlphanum || c = '-' || c = '_' || c = '.' || c = '!' ||
  c = '~' || c = '*' || c.toNat = 39 || c = '(' || c = ')'

/-- Uppercase hex digit of a value below 16. -/
def hexDig (n : Nat) : Char := if n < 10 then Char.ofNat (48 + n) else Char.ofNat (55 + n)

/-- Percent-encoding of one byte. -/
def pctByte (b : Nat) : List Char := ['%', hexDig (b / 16), hexDig (b % 16)]

/-- UTF-8 bytes of a code point. -/
def utf8Bytes (c : Char) : List Nat :=
  let n := c.toNat
  if n < 0x80 then [n]
  else if n < 0x800 then [0xC0 + n / 64, 0x80 + n % 64]
  else if n < 0x10000 then [0xE0 + n / 4096, 0x80 + (n / 64) % 64, 0x80 + n % 64]
  else [0xF0 + n / 262144, 0x80 + (n / 4096) % 64, 0x80 + (n / 64) % 64, 0x80 + n % 64]

/-- `encodeURIComponent` on one character. -/
def encChar (c : Char) : List Char :=
  if unreservedUri c then [c] else ((utf8Bytes c).map pctByte).flatten

/-- JS `encodeURIComponent`. -/
def encodeURIComponent (s : String) : String := ⟨(s.data.map encChar).flatten⟩

/-- Wrap a string in double quotes, as the template literals
`"${role}"` and `'"' + companyName + '"'` do. -/
def quoteStr (s : String) : String := "\"" ++ s ++ "\""

/-- The string passed to `encodeURIComponent`:
`site:linkedin.com/in "${role}" ${company}` with `company = "name"`. -/
def linkedinQuery (role companyName : String) : String :=
  "site:linkedin.com/in " ++ quoteStr role ++ " " ++ quoteStr companyName

/-- One people-search URL. -/
def searchUrlFor (role companyName : String) : String :=
  "https://www.google.com/search?q=" ++ encodeURIComponent (linkedinQuery role companyName)

/-- A `{role, url}` entry of `linkedinSearch`. -/
structure RoleLink where
  role : String
  url : String
deriving DecidableEq

/-- Source `buildLinkedInSearch` (src/unnamed/part_000:303-310). -/
def buildLinkedInSearch (companyName : String) (roles : List String) : List RoleLink :=
  roles.map (fun role => { role := role, url := searchUrlFor role companyName })

/-- The fixed role list of the enrichment loop (src/unnamed/part_000:94-102). -/
def rolesList : List String :=
  ["CEO", "COO", "CTO", "Head of Operations", "Head of Supply Chain",
   "Operations Manager", "Supply Chain Manager"]

/-! ### Handler (src/unnamed/part_000:14-144)

The three provider adapters (`fetchGoogleV1`, `fetchLegacy`, `fetchOSM`)
perform network requests and translate the payloads; each constructs
records with exactly the fields `name`, `website`, `address`
(src/unnamed/part_000:175-179, 190-192, 237-243).  They are modeled as
oracles from the query they are sent to either the translated candidate
list or a thrown error message. -/

/-- The record shape every provider adapter produces. -/
structure ProviderRec where
  name : String
  website : String
  address : String
deriving DecidableEq

/-- View a provider record as a `score` input: its `description` field
is absent (`undefined` in JS). -/
def toCandidate (p : ProviderRec) : Candidate :=
  { name := p.name, website := p.website, address := p.address, description := none }

/-- An enriched company of the response (src/unnamed/part_000:108-114).
The mock entries of the catch block carry no `description`. -/
structure EnrichedCompany where
  name : String
  website : String
  address : String
  description : Option String
  emails : List String
  linkedinSearch : List RoleLink
  leadScore : Nat
deriving DecidableEq

/-- The JSON envelope the handler sends, together with the HTTP status
it is sent with. -/
structure ResultEnvelope where
  status : Nat
  mode : String
  queryUsed : String
  total : Nat
  companies : List EnrichedCompany
  errorMessage : Option String
deriving DecidableEq

/-- The key-gated part of the provider chain
(src/unnamed/part_000:73-87): `companies` starts `[]` and `mode` starts
`'live-osm'`; with a key, a Google v1 success tags `live-v1`, else a
legacy success tags `live-legacy`, else both errors are swallowed. -/
def stage1 (apiKey : Option String)
    (google legacy : String → Except String (List ProviderRec))
    (q : String) : String × List ProviderRec :=
  match apiKey with
  | none => ("live-osm", [])
  | some _ =>
    match google q with
    | Except.ok xs => ("live-v1", xs)
    | Except.error _ =>
      match legacy q with
      | Except.ok ys => ("live-legacy", ys)
      | Except.error _ => ("live-osm", [])

/-- The full chain (src/unnamed/part_000:73-91): when the key-gated part
left `companies` empty, `fetchOSM` runs and its error propagates to the
handler's catch block. -/
def runChain (apiKey : Option String)
    (google legacy : String → Except String (List ProviderRec))
    (osm : String → String → Except String (List ProviderRec))
    (q loc : String) : Except String (String × List ProviderRec) :=
  let s1 := stage1 apiKey google legacy q
  if s1.2 = [] then
    match osm q loc with
    | Except.ok zs => Except.ok ("live-osm", zs)
    | Except.error e => Except.error e
  else Except.ok s1

/-- Enrichment of one candidate (src/unnamed/part_000:105-115): spread
the base record, attach the trimmed `subject industry` description, the
discovered emails and the role links, and score the *base* record. -/
def enrichOne (net : String → Option String) (crit : SearchCriteria)
    (p : ProviderRec) : EnrichedCompany :=
  { name := p.name, website := p.website, address := p.address,
    description := some (trimStr (crit.subject ++ " " ++ crit.industry)),
    emails := fetchPublicEmails net p.website,
    linkedinSearch := buildLinkedInSearch p.name rolesList,
    leadScore := score crit (toCandidate p) }

/-- The fixed placeholder dataset of the catch block
(src/unnamed/part_000:127-129). -/
def mockRecs : List ProviderRec :=
  [{ name := "AI Logistics Pty Ltd", website := "https://ailogistics.example",
     address := "CBD, Sydney" },
   { name := "Smart Manufacturing AI", website := "https://smaiai.example",
     address := "North Sydney" }]

/-- One mock company (src/unnamed/part_000:130-135): scored by the same
`score` closure, no emails, a single-role link set. -/
def mockCompany (crit : SearchCriteria) (p : ProviderRec) : EnrichedCompany :=
  { name := p.name, website := p.website, address := p.address, description := none,
    emails := [], linkedinSearch := buildLinkedInSearch p.name ["CEO"],
    leadScore := score crit (toCandidate p) }

/-- `String(err?.message || err)`: an `Error` whose message is empty
stringifies to `"Error"`. -/
def jsErrorMessage (msg : String) : String := if msg = "" then "Error" else msg

/-- The handler body after parameter extraction
(src/unnamed/part_000:44-143).  `fullFlag` picks `maxResults` 40 or 15;
the try block runs the chain and the enrichment loop; the catch block
returns the scored placeholder dataset with the error message.  Both
paths respond with HTTP status 200. -/
def handler (apiKey : Option String)
    (google legacy : String → Except String (List ProviderRec))
    (osm : String → String → Except String (List ProviderRec))
    (net : String → Option String)
    (crit : SearchCriteria) (fullFlag : Bool) : ResultEnvelope :=
  let q := buildQuery crit
  let maxResults := if fullFlag then 40 else 15
  match runChain apiKey google legacy osm q crit.location with
  | Except.ok mc =>
    { status := 200, mode := mc.1, queryUsed := q, total := mc.2.length,
      companies := (mc.2.take maxResults).map (enrichOne net crit),
      errorMessage := none }
  | Except.error err =>
    { status := 200, mode := "mock-error", queryUsed := q,
      total := (mockRecs.map (mockCompany crit)).length,
      companies := mockRecs.map (mockCompany crit),
      errorMessage := some (jsErrorMessage err) }

/-! ### Spec-side definitions

These restate parts of the design document in its own words, to be
compared with the definitions translated from the source. -/

/-- Modelled from the spec: the canonical query is the space-separated,
trimmed join of the non-empty subject, the non-empty industry and (when
location is non-empty) the phrase `in <location>`; when that join is
empty the query is the literal `"manufacturer"`. -/
def specQuery (crit : SearchCriteria) : String :=
  let parts :=
    (if crit.subject = "" then [] else [crit.subject]) ++
    (if crit.industry = "" then [] else [crit.industry]) ++
    (if crit.location = "" then [] else ["in " ++ crit.location])
  let joined := trimStr (joinSp parts)
  if joined = "" then "manufacturer" else joined

/-- Modelled from the spec: a criterion is awarded when every
whitespace-delimited lowered token of `q` appears as a substring of the
lowered blob (vacuously when `q` is blank, which makes its token list
empty). -/
def specAward (q blob : String) : Bool :=
  (jsTokens q).all (fun tok => containsSubL tok.data blob.data)

/-- Modelled from the spec: the scoring rule over the four blob fields —
one lowered text blob of name, description, address, website; 50 points
for subject and 30 for industry against the blob, 20 for location
against the address alone; the sum clamped to [10,100] with a raw sum
of 0 replaced by 10. -/
def specScore (crit : SearchCriteria) (name desc addr website : String) : Nat :=
  let blob := lowerStr (name ++ " " ++ desc ++ " " ++ addr ++ " " ++ website)
  let raw :=
    (if specAward crit.subject blob then 50 else 0) +
    (if specAward crit.industry blob then 30 else 0) +
    (if specAward crit.location (lowerStr addr) then 20 else 0)
  max 10 (min 100 (if raw = 0 then 10 else raw))

/-- `pat` occurs contiguously inside `t`. -/
def strContains (t pat : String) : Prop :=
  ∃ pre post, t = pre ++ (pat ++ post)

/-! ### Concrete fixtures used by witnesses and counterexamples -/

/-- A primary provider that always throws. -/
def gFail : String → Except String (List ProviderRec) := fun _ => Except.error "primary down"

/-- A secondary provider that always throws. -/
def lFail : String → Except String (List ProviderRec) := fun _ => Except.error "secondary down"

/-- A geodata provider that always throws. -/
def oFail : String → String → Except String (List ProviderRec) :=
  fun _ _ => Except.error "osm down"

/-- A geodata provider returning zero elements. -/
def oEmpty : String → String → Except String (List ProviderRec) := fun _ _ => Except.ok []

/-- A primary provider succeeding with zero results. -/
def gEmpty : String → Except String (List ProviderRec) := fun _ => Except.ok []

/-- A candidate whose fields match no subject token. -/
def w1rec : ProviderRec := { name := "x", website := "", address := "" }

/-- A geodata provider returning exactly `w1rec`. -/
def oOne : String → String → Except String (List ProviderRec) := fun _ _ => Except.ok [w1rec]

/-- A primary provider succeeding with one candidate. -/
def gOne : String → Except String (List ProviderRec) := fun _ => Except.ok [w1rec]

/-- A network where every page fetch fails. -/
def netNone : String → Option String := fun _ => none

/-- All-empty search criteria. -/
def crit0 : SearchCriteria := { subject := "", industry := "", location := "" }

/-- Criteria whose subject token `zzz` matches nothing in `w1rec`. -/
def crit1 : SearchCriteria := { subject := "zzz", industry := "", location := "" }

/-- The single company the handler produces for `oOne`/`crit1`. -/
def w1item : EnrichedCompany := enrichOne netNone crit1 w1rec

/-- A network whose only reachable page is the `x.com` homepage, which
shows a placeholder address with an upper-case suffix. -/
def net6 : String → Option String :=
  fun u => if u = "https://x.com" then some "Info@Demo.EXAMPLE" else none

/-! ## Theorems -/

/-- Strings are equal when their character lists are. -/
theorem strExt {a b : String} (h : a.data = b.data) : a = b := String.ext h

/-- String append is associative. -/
theorem strAppendAssoc (a b c : String) : a ++ b ++ c = a ++ (b ++ c) :=
  strExt (by simp [String.data_append, List.append_assoc])

/-- The empty string is a right identity. -/
theorem strAppendNil (a : String) : a ++ "" = a :=
  strExt (by simp [String.data_append])

/-- `"in " ++ loc` is never the empty string. -/
theorem inLoc_ne (loc : String) : ¬ ("in " ++ loc = "") := by
  intro h
  have h2 := congrArg String.data h
  simp [String.data_append] at h2

/-- Over the 8 combinations of award flags, the clamped score is bounded
by 10 and 100. -/
theorem clampScore_bounds (a b c : Bool) :
    10 ≤ clampScore (rawFromFlags a b c) ∧ clampScore (rawFromFlags a b c) ≤ 100 := by
  cases a <;> cases b <;> cases c <;> decide

/-- Over the 8 combinations of award flags, the clamped score takes one
of seven values. -/
theorem clampScore_values (a b c : Bool) :
    clampScore (rawFromFlags a b c) = 10 ∨ clampScore (rawFromFlags a b c) = 20 ∨
    clampScore (rawFromFlags a b c) = 30 ∨ clampScore (rawFromFlags a b c) = 50 ∨
    clampScore (rawFromFlags a b c) = 70 ∨ clampScore (rawFromFlags a b c) = 80 ∨
    clampScore (rawFromFlags a b c) = 100 := by
  cases a <;> cases b <;> cases c <;> decide

/-- C2: for every candidate and every SearchCriteria the computed lead
score lies in the closed range [10,100]; in particular it is never 0 or
negative, for all possible string field values. -/
theorem C2_score_bounds (crit : SearchCriteria) (c : Candidate) :
    10 ≤ score crit c ∧ score crit c ≤ 100 :=
  clampScore_bounds _ _ _

/-- C10: for every candidate and every SearchCriteria the computed lead
score is one of the seven values 10, 20, 30, 50, 70, 80, 100 — the raw
sum is a sum of a subset of 50, 30, 20 (with 30 + 20 = 50 coinciding
with the bare 50) and a raw sum of 0 is replaced by 10, so values such
as 40, 60 or 90 never occur. -/
theorem C10_score_values (crit : SearchCriteria) (c : Candidate) :
    score crit c = 10 ∨ score crit c = 20 ∨ score crit c = 30 ∨ score crit c = 50 ∨
    score crit c = 70 ∨ score crit c = 80 ∨ score crit c = 100 :=
  clampScore_values _ _ _

/-- C5: the canonical query equals the spec's description (trimmed join
of non-empty subject, non-empty industry and `in <location>`, defaulting
to `"manufacturer"`); the response echoes it unchanged as `queryUsed` on
the live paths and the mock-error path alike; and the handler consults
each provider only at that query, so its result is unchanged when every
provider is replaced by its value at the canonical query. -/
theorem C5_canonical_query (apiKey : Option String)
    (g l : String → Except String (List ProviderRec))
    (o : String → String → Except String (List ProviderRec))
    (net : String → Option String) (crit : SearchCriteria) (full : Bool) :
    buildQuery crit = specQuery crit ∧
    (handler apiKey g l o net crit full).queryUsed = buildQuery crit ∧
    handler apiKey g l o net crit full =
      handler apiKey (fun _ => g (buildQuery crit)) (fun _ => l (buildQuery crit))
        (fun _ _ => o (buildQuery crit) crit.location) net crit full := by
  refine ⟨?_, ?_, ?_⟩
  · by_cases hs : crit.subject = "" <;> by_cases hi : crit.industry = "" <;>
      by_cases hl : crit.location = "" <;>
      simp [buildQuery, specQuery, hs, hi, hl, inLoc_ne, joinSp]
  · cases hr : runChain apiKey g l o (buildQuery crit) crit.location <;>
      simp [handler, hr]
  · rfl

/-- Whitespace characters are fixed by ASCII lowering. -/
theorem charLower_ws {c : Char} (h : isWs c = true) : charLower c = c := by
  have hn : ¬ (65 ≤ c.toNat ∧ c.toNat ≤ 90) := by
    simp only [isWs, Bool.or_eq_true, decide_eq_true_eq] at h
    omega
  simp [charLower, hn]

/-- If trimming a list gives the empty list, every character was
whitespace. -/
theorem trim_nil_allWs {l : List Char}
    (h : ((l.dropWhile isWs).reverse.dropWhile isWs).reverse = []) :
    ∀ c ∈ l, isWs c = true := by
  intro c hc
  rw [List.reverse_eq_nil_iff, List.dropWhile_eq_nil_iff] at h
  have hdrop : ∀ a ∈ l.dropWhile isWs, isWs a = true := by
    intro a ha
    exact h a (List.mem_reverse.mpr ha)
  have hsplit := List.takeWhile_append_dropWhile (p := isWs) (l := l)
  rw [← hsplit] at hc
  rcases List.mem_append.mp hc with hc | hc
  · exact List.mem_takeWhile_imp hc
  · exact hdrop c hc

/-- Trimming an all-whitespace list gives the empty list. -/
theorem trim_of_allWs {l : List Char} (h : ∀ c ∈ l, isWs c = true) :
    ((l.dropWhile isWs).reverse.dropWhile isWs).reverse = [] := by
  have h1 : l.dropWhile isWs = [] := List.dropWhile_eq_nil_iff.mpr h
  simp [h1]

/-- Splitting an all-whitespace list into words gives no words. -/
theorem wordsAux_nil {l : List Char} (h : ∀ c ∈ l, isWs c = true) :
    wordsAux l [] = [] := by
  induction l with
  | nil => rfl
  | cons c cs ih =>
    have hc : isWs c = true := h c (List.mem_cons_self c cs)
    have ih2 := ih (fun a ha => h a (List.mem_cons_of_mem c ha))
    simp [wordsAux, hc, ih2]

/-- A blank string has no tokens. -/
theorem jsTokens_of_blank {q : String} (h : (trimStr q).data = []) :
    jsTokens q = [] := by
  have hws : ∀ c ∈ q.data, isWs c = true := trim_nil_allWs h
  have hlow : ∀ c ∈ (lowerStr q).data, isWs c = true := by
    intro c hc
    simp only [lowerStr] at hc
    rcases List.mem_map.mp hc with ⟨a, ha, rfl⟩
    rw [charLower_ws (hws a ha)]
    exact hws a ha
  have htrim : (trimStr (lowerStr q)).data = [] := trim_of_allWs hlow
  simp only [jsTokens, htrim, wordsAux]
  rfl

/-- The source's `containsAll` coincides with the spec's award rule:
the early blank-return is exactly the vacuous case of "every token". -/
theorem containsAll_eq_specAward (text q : String) :
    containsAll text q = specAward q (lowerStr text) := by
  by_cases h : (trimStr q).data = []
  · simp [containsAll, h, specAward, jsTokens_of_blank h]
  · simp [containsAll, h, specAward]

/-- The source `score` is the spec scoring rule applied to the
candidate's four fields, a missing description joining as the empty
string. -/
theorem score_eq_specScore (crit : SearchCriteria) (c : Candidate) :
    score crit c = specScore crit c.name (c.description.getD "") c.address c.website := by
  simp [score, specScore, clampScore, rawFromFlags, containsAll_eq_specAward]

/-- C1 (amended): the scoring function forms one lowered blob from name,
description, address, website and awards 50/30/20 for the token-wise
subject, industry and location criteria, clamping the sum to [10,100]
with 0 replaced by 10 — but at the enrichment call site the candidate
passed to `score` carries no description (that field is attached to the
enriched item only after scoring), so the blob's description component
is empty there rather than containing the stored description. -/
theorem C1_scoring_amended :
    (∀ (crit : SearchCriteria) (c : Candidate),
        score crit c = specScore crit c.name (c.description.getD "") c.address c.website) ∧
    (∀ (apiKey : Option String) (g l : String → Except String (List ProviderRec))
        (o : String → String → Except String (List ProviderRec))
        (net : String → Option String) (crit : SearchCriteria) (full : Bool),
      (handler apiKey g l o net crit full).mode ≠ "mock-error" →
      ∀ item ∈ (handler apiKey g l o net crit full).companies,
        item.leadScore = specScore crit item.name "" item.address item.website) := by
  refine ⟨score_eq_specScore, ?_⟩
  intro apiKey g l o net crit full hmode item hitem
  cases hr : runChain apiKey g l o (buildQuery crit) crit.location with
  | error e => simp [handler, hr] at hmode
  | ok mc =>
    simp only [handler, hr] at hitem
    rcases List.mem_map.mp hitem with ⟨p, _, rfl⟩
    simpa [enrichOne, toCandidate] using score_eq_specScore crit (toCandidate p)

/-- C1 counterexample: with subject `zzz` and the sole live candidate
named `x`, the stored company has description `zzz` and leadScore 50,
while the same scoring function over a blob that includes that
description yields 100 — the call-site blob therefore does not include
the candidate's description field. -/
theorem C1_cex :
    (handler none gFail lFail oOne netNone crit1 false).companies = [w1item] ∧
    w1item.description = some "zzz" ∧
    w1item.leadScore = 50 ∧
    score crit1 { name := w1item.name, website := w1item.website,
                  address := w1item.address, description := w1item.description } = 100 := by
  refine ⟨rfl, rfl, by decide, by decide⟩

/-- C1 witness: the amended theorem applied to the concrete live run
behind `w1item`. -/
theorem C1_wit :
    w1item.leadScore = specScore crit1 w1item.name "" w1item.address w1item.website :=
  C1_scoring_amended.2 none gFail lFail oOne netNone crit1 false
    (by decide) w1item (show w1item ∈ [w1item] from List.mem_singleton.mpr rfl)

/-- `String(err?.message || err)` never produces the empty string. -/
theorem jsErrorMessage_ne (e : String) : jsErrorMessage e ≠ "" := by
  unfold jsErrorMessage
  split
  · decide
  · assumption

/-- The empty string is a left identity for append. -/
theorem strNilAppend (a : String) : "" ++ a = a :=
  strExt (by simp [String.data_append])

/-- C3 (amended): when a credential is configured, both key-gated
provider attempts fail and the geodata stage itself succeeds, the
response has mode `live-osm` and HTTP status 200 (no exception escapes
to the caller); moreover the geodata stage is consulted exactly when no
credential is configured, both prior stages failed, or the prior stages
returned an empty candidate list — and when it is not consulted, the
response does not depend on the geodata provider at all. -/
theorem C3_fallback_amended :
    (∀ (k : String) (g l : String → Except String (List ProviderRec))
        (o : String → String → Except String (List ProviderRec))
        (net : String → Option String) (crit : SearchCriteria) (full : Bool)
        (e1 e2 : String) (zs : List ProviderRec),
      g (buildQuery crit) = Except.error e1 →
      l (buildQuery crit) = Except.error e2 →
      o (buildQuery crit) crit.location = Except.ok zs →
      (handler (some k) g l o net crit full).mode = "live-osm" ∧
      (handler (some k) g l o net crit full).status = 200) ∧
    (∀ (apiKey : Option String) (g l : String → Except String (List ProviderRec)) (q : String),
      (stage1 apiKey g l q).2 = [] ↔
        (apiKey = none ∨
         (∃ a b, g q = Except.error a ∧ l q = Except.error b) ∨
         (g q = Except.ok [] ∨
          ∃ a, g q = Except.error a ∧ l q = Except.ok []))) ∧
    (∀ (apiKey : Option String) (g l : String → Except String (List ProviderRec))
        (o o2 : String → String → Except String (List ProviderRec))
        (net : String → Option String) (crit : SearchCriteria) (full : Bool),
      ¬ (stage1 apiKey g l (buildQuery crit)).2 = [] →
        handler apiKey g l o net crit full = handler apiKey g l o2 net crit full) := by
  refine ⟨?_, ?_, ?_⟩
  · intro k g l o net crit full e1 e2 zs hg hl ho
    constructor <;> simp [handler, runChain, stage1, hg, hl, ho]
  · intro apiKey g l q
    cases apiKey with
    | none => simp [stage1]
    | some _ => cases hG : g q <;> cases hL : l q <;> simp [stage1, hG, hL]
  · intro apiKey g l o o2 net crit full hne
    simp [handler, runChain, hne]

/-- C3 counterexample: with a credential configured and the primary and
secondary providers failing, a failure of the geodata stage gives mode
`mock-error`, not `live-osm` — the claim's conclusion does not hold
unconditionally. -/
theorem C3_cex :
    (handler (some "key") gFail lFail oFail netNone crit0 false).mode = "mock-error" ∧
    (handler (some "key") gFail lFail oFail netNone crit0 false).mode ≠ "live-osm" :=
  ⟨rfl, by decide⟩

/-- C3 witness: the amended theorem at two concrete runs — both
key-gated providers fail and the geodata stage succeeds (mode
`live-osm`, status 200), and the primary provider succeeds non-empty,
whence the geodata stage is not consulted and swapping a failing for an
empty geodata provider leaves the response unchanged. -/
theorem C3_wit :
    ((handler (some "key") gFail lFail oEmpty netNone crit0 false).mode = "live-osm" ∧
     (handler (some "key") gFail lFail oEmpty netNone crit0 false).status = 200) ∧
    handler (some "key") gOne lFail oFail netNone crit0 false =
      handler (some "key") gOne lFail oEmpty netNone crit0 false := by
  have h := C3_fallback_amended
  exact ⟨h.1 "key" gFail lFail oEmpty netNone crit0 false
           "primary down" "secondary down" [] rfl rfl rfl,
         h.2.2 (some "key") gOne lFail oFail oEmpty netNone crit0 false (by decide)⟩

/-- C4: if the geodata provider fails after both key-gated providers
failed, the caller still receives HTTP status 200 with mode
`mock-error`, exactly the 2 placeholder companies — each carrying the
real scoring function's value and a single-role LinkedIn link set — and
a non-empty error message. -/
theorem C4_mock_on_total_failure (k : String)
    (g l : String → Except String (List ProviderRec))
    (o : String → String → Except String (List ProviderRec))
    (net : String → Option String) (crit : SearchCriteria) (full : Bool)
    (e1 e2 e3 : String)
    (hg : g (buildQuery crit) = Except.error e1)
    (hl : l (buildQuery crit) = Except.error e2)
    (ho : o (buildQuery crit) crit.location = Except.error e3) :
    (handler (some k) g l o net crit full).status = 200 ∧
    (handler (some k) g l o net crit full).mode = "mock-error" ∧
    (handler (some k) g l o net crit full).companies.length = 2 ∧
    (handler (some k) g l o net crit full).total = 2 ∧
    (handler (some k) g l o net crit full).companies.map (fun comp => comp.leadScore) =
      mockRecs.map (fun p => score crit (toCandidate p)) ∧
    (handler (some k) g l o net crit full).companies.map (fun comp => comp.linkedinSearch) =
      mockRecs.map (fun p => buildLinkedInSearch p.name ["CEO"]) ∧
    (handler (some k) g l o net crit full).errorMessage = some (jsErrorMessage e3) ∧
    jsErrorMessage e3 ≠ "" := by
  refine ⟨?_, ?_, ?_, ?_, ?_, ?_, ?_, jsErrorMessage_ne e3⟩ <;>
    simp [handler, runChain, stage1, hg, hl, ho, mockRecs, mockCompany]

/-- C4 witness: the theorem at a concrete total-failure run. -/
theorem C4_wit :
    (handler (some "key") gFail lFail oFail netNone crit0 false).mode = "mock-error" ∧
    (handler (some "key") gFail lFail oFail netNone crit0 false).companies.length = 2 ∧
    (handler (some "key") gFail lFail oFail netNone crit0 false).errorMessage = some "osm down" := by
  have h := C4_mock_on_total_failure "key" gFail lFail oFail netNone crit0 false
    "primary down" "secondary down" "osm down" rfl rfl rfl
  exact ⟨h.2.1, h.2.2.1, h.2.2.2.2.2.2.1⟩

/-- C8: when the key-gated part of the chain leaves the candidate list
empty (no credential, zero results, or swallowed failures) and the
geodata stage completes with zero elements, the response is exactly the
empty live-osm envelope: total 0, no companies, no error message and no
placeholder substitution. -/
theorem C8_empty_results (apiKey : Option String)
    (g l : String → Except String (List ProviderRec))
    (o : String → String → Except String (List ProviderRec))
    (net : String → Option String) (crit : SearchCriteria) (full : Bool)
    (hempty : (stage1 apiKey g l (buildQuery crit)).2 = [])
    (ho : o (buildQuery crit) crit.location = Except.ok ([] : List ProviderRec)) :
    handler apiKey g l o net crit full =
      { status := 200, mode := "live-osm", queryUsed := buildQuery crit,
        total := 0, companies := [], errorMessage := none } := by
  simp [handler, runChain, hempty, ho]

/-- C8 witness: a run where the primary provider succeeds with zero
results and the geodata stage returns zero elements. -/
theorem C8_wit :
    handler (some "key") gEmpty lFail oEmpty netNone crit0 false =
      { status := 200, mode := "live-osm", queryUsed := "manufacturer",
        total := 0, companies := [], errorMessage := none } :=
  C8_empty_results (some "key") gEmpty lFail oEmpty netNone crit0 false rfl rfl

/-- C9: email discovery returns the empty list whenever the website is
empty or its URL normalization fails — for every network oracle, so no
page fetch can affect the result. -/
theorem C9_bad_url_empty (net : String → Option String) (w : String)
    (h : w = "" ∨ normalizeUrl w = "") :
    fetchPublicEmails net w = [] := by
  have p1 : urlIsParseable "" = false := rfl
  have p2 : urlIsParseable "/contact" = false := rfl
  have p3 : urlIsParseable "/contact-us" = false := rfl
  have p4 : urlIsParseable "/about" = false := rfl
  have p5 : urlIsParseable "/contacts" = false := rfl
  rcases h with h | h
  · simp [fetchPublicEmails, h]
  · by_cases hw : w = ""
    · simp [fetchPublicEmails, hw]
    · simp [fetchPublicEmails, hw, h, contactPaths, pagesLoop, jsFetch,
        strNilAppend, p1, p2, p3, p4, p5]

/-- C9 witness: the all-whitespace website `" "` is non-empty, its
normalization fails, and discovery returns no emails. -/
theorem C9_wit :
    (normalizeUrl " " = "" ∧ (" " : String) ≠ "") ∧ fetchPublicEmails netNone " " = [] :=
  ⟨⟨rfl, by decide⟩, C9_bad_url_empty netNone " " (Or.inr rfl)⟩

/-- C6: the `.example` filter runs on the raw regex match before
lowercasing, so a scraped address ending in `.EXAMPLE` passes the filter
and is then stored lowercased — the returned list contains an entry
ending in the reserved placeholder suffix, contradicting the documented
exclusion of example domains. -/
theorem C6_placeholder_leak :
    fetchPublicEmails net6 "x.com" = ["info@demo.example"] ∧
    strEndsWith "info@demo.example" ".example" = true :=
  ⟨rfl, rfl⟩

/-- `encodeURIComponent` distributes over concatenation (it encodes
character by character). -/
theorem encSplit (a b : String) :
    encodeURIComponent (a ++ b) = encodeURIComponent a ++ encodeURIComponent b :=
  strExt (by simp [encodeURIComponent, String.data_append])

/-- Each people-search URL contains the percent-encoding of the quoted
role. -/
theorem searchUrl_contains_role (role name : String) :
    strContains (searchUrlFor role name) (encodeURIComponent (quoteStr role)) :=
  ⟨"https://www.google.com/search?q=" ++ encodeURIComponent "site:linkedin.com/in ",
   encodeURIComponent (" " ++ quoteStr name),
   by simp [searchUrlFor, linkedinQuery, encSplit, strAppendAssoc]⟩

/-- Each people-search URL contains the percent-encoding of the quoted
company name. -/
theorem searchUrl_contains_name (role name : String) :
    strContains (searchUrlFor role name) (encodeURIComponent (quoteStr name)) :=
  ⟨"https://www.google.com/search?q=" ++
     encodeURIComponent ("site:linkedin.com/in " ++ quoteStr role ++ " "), "",
   by simp [searchUrlFor, linkedinQuery, encSplit, strAppendAssoc, strAppendNil]⟩

/-- C7: every company enriched on a live (non-placeholder) path has
exactly 7 `linkedinSearch` entries, one per configured role in the
configured order, and each entry's URL contains the quoted role and the
quoted company name in their URL-encoded form. -/
theorem C7_linkedin_links (apiKey : Option String)
    (g l : String → Except String (List ProviderRec))
    (o : String → String → Except String (List ProviderRec))
    (net : String → Option String) (crit : SearchCriteria) (full : Bool) :
    ∀ item ∈ (handler apiKey g l o net crit full).companies,
      (handler apiKey g l o net crit full).mode ≠ "mock-error" →
      item.linkedinSearch.length = 7 ∧
      item.linkedinSearch.map (fun rl => rl.role) = rolesList ∧
      ∀ rl ∈ item.linkedinSearch,
        strContains rl.url (encodeURIComponent (quoteStr rl.role)) ∧
        strContains rl.url (encodeURIComponent (quoteStr item.name)) := by
  intro item hitem hmode
  cases hr : runChain apiKey g l o (buildQuery crit) crit.location with
  | error e => simp [handler, hr] at hmode
  | ok mc =>
    simp only [handler, hr] at hitem
    rcases List.mem_map.mp hitem with ⟨p, _, rfl⟩
    refine ⟨by simp [enrichOne, buildLinkedInSearch, rolesList], ?_, ?_⟩
    · simp only [enrichOne, buildLinkedInSearch, List.map_map]
      exact List.map_id' rolesList
    · intro rl hrl
      simp only [enrichOne, buildLinkedInSearch] at hrl
      rcases List.mem_map.mp hrl with ⟨role, _, rfl⟩
      simpa [enrichOne] using
        ⟨searchUrl_contains_role role p.name, searchUrl_contains_name role p.name⟩

/-- C7 witness: the concrete live company `w1item` has the 7 role links
in the configured order. -/
theorem C7_wit :
    w1item.linkedinSearch.length = 7 ∧
    w1item.linkedinSearch.map (fun rl => rl.role) = rolesList := by
  have h := C7_linkedin_links none gFail lFail oOne netNone crit1 false w1item
    (show w1item ∈ [w1item] from List.mem_singleton.mpr rfl) (by decide)
  exact ⟨h.1, h.2.1⟩

end LeadFinder
